import Mathlib

/-!
# Verification of the `structs` runtime struct-introspection engine

This file gives a shallow embedding, in Lean 4, of the core of the
`roninzo/structs` Go library and proves (or refutes) a fixed list of
behavioural claims about it.

The embedding models Go runtime values (`reflect.Value`) by the inductive
type `GoVal`.  Scope of the model:

* categories covered: bool, signed integer (with bit width), unsigned
  integer (with bit width), string, struct, pointer, slice (including byte
  slices), plus opaque markers for map/chan/func kinds;
* floating point, complex, `time.Time`, `time.Duration` and error-valued
  fields are outside the model (the corresponding `Can*` predicates are
  identically false on modelled values, so the source branches guarded by
  them are unreachable and are omitted);
* pointers in the model always carry their pointee (a nil pointer is not
  representable); slices carry, besides their elements, the zero value of
  their element type (standing for `reflect.New(t.Elem()).Elem()`).

Machine integers are modelled as unbounded `Int`/`Nat` together with the
explicit width checks (`OverflowInt`/`OverflowUint`) that the source
performs; a `vInt w n` is well-formed when `n` fits in `w` bits, expressed
by `inIntRange` where a theorem needs it.

Go panics are modelled by the `Except GoPanic` result type on the
operations that can hit `reflect.Value.Type` on the zero `reflect.Value`.
-/

namespace Structs

/-- Go `reflect.Kind`, restricted to the kinds the engine distinguishes.
Signed/unsigned integer kinds carry their bit width (`kInt 8` = `int8`,
`kInt 64` = `int64`/`int`, and so on). -/
inductive GoKind where
  | kBool
  | kInt (w : Nat)
  | kUint (w : Nat)
  | kString
  | kStruct
  | kPtr
  | kSlice
  | kMap
  | kChan
  | kFunc
deriving DecidableEq, Repr

/-- The panics the modelled operations can raise.  `zeroValueType` stands
for the Go runtime panic `reflect: call of reflect.Value.Type on zero
Value` raised when `Type()` (directly or inside `Explode`) is invoked on
an invalid `reflect.Value`. -/
inductive GoPanic where
  | zeroValueType
deriving DecidableEq, Repr

/-- The error values the modelled operations return, one constructor per
error site in the source.  The constructors carry exactly the data that the
corresponding `errors.Errorf`/`errors.New` call formats into its message. -/
inductive GoErr where
  | notSettable (fullname : String)
  | wrongKind (fullname got want : String)
  | couldNotRepresentInt64 (fullname got : String)
  | couldNotRepresentUint64 (fullname got : String)
  | notAPtr (k : GoKind)
  | unsupportedPtr (k : GoKind)
  | depthExceeded (lookups : Nat) (kinds : List GoKind)
  | invalidFieldName (n : String)
  | invalidFieldIndex (i : Int)
  | invalidDate (txt : String) (layouts : List String)
  | errNoStructs
  | errNoRow
  | errNoRows
  | errRowsClosed
deriving DecidableEq, Repr

mutual
/-- A Go runtime value together with its type information, as far as the
engine inspects it.  `vStruct tname fs` is a struct value of (canonical)
type name `tname`; `vSlice z es` is a slice whose element type has zero
value `z` and whose elements are `es`; `vPtr e` is a non-nil pointer to
`e`.  `vMap`/`vChan`/`vFunc` are opaque values of the rejected kinds. -/
inductive GoVal where
  | vBool (b : Bool)
  | vInt (w : Nat) (n : Int)
  | vUint (w : Nat) (n : Nat)
  | vString (s : String)
  | vStruct (tname : String) (fields : GoFields)
  | vPtr (elem : GoVal)
  | vSlice (zeroElem : GoVal) (elems : GoVals)
  | vMap
  | vChan
  | vFunc
deriving DecidableEq, Repr

/-- A list of Go values (slice elements). -/
inductive GoVals where
  | vnil
  | vcons (head : GoVal) (tail : GoVals)
deriving DecidableEq, Repr

/-- The declared fields of a struct value, in declaration order: name,
`Anonymous` flag (embedded field) and value. -/
inductive GoFields where
  | fnil
  | fcons (name : String) (anonymous : Bool) (val : GoVal) (tail : GoFields)
deriving DecidableEq, Repr
end

/-- The `reflect.Kind` of a modelled value. -/
def goKind : GoVal → GoKind
  | .vBool _ => .kBool
  | .vInt w _ => .kInt w
  | .vUint w _ => .kUint w
  | .vString _ => .kString
  | .vStruct _ _ => .kStruct
  | .vPtr _ => .kPtr
  | .vSlice _ _ => .kSlice
  | .vMap => .kMap
  | .vChan => .kChan
  | .vFunc => .kFunc

/-- Number of elements of a slice (`reflect.Value.Len`). -/
def GoVals.length : GoVals → Nat
  | .vnil => 0
  | .vcons _ t => t.length + 1

/-- `i`-th element of a slice (`reflect.Value.Index`); `none` models the
out-of-range panic, never reached through the guarded call sites below. -/
def GoVals.get : GoVals → Nat → Option GoVal
  | .vnil, _ => none
  | .vcons h _, 0 => some h
  | .vcons _ t, i + 1 => t.get i

/-- Concatenation of field lists (used to state theorems about structs
split around a distinguished field). -/
def GoFields.append : GoFields → GoFields → GoFields
  | .fnil, gs => gs
  | .fcons n a v t, gs => .fcons n a v (t.append gs)

/-! ## Field flattening: `embedded.Explode`

Embedding of `Explode` (package `embedded`).  The Go function threads a
`map[int]Unembeddeds` keyed by a monotone counter `*c` and an in-place
index path `x`; purified here, it returns the catalog as a list in
emission order (the `Index` attribute of an entry is its list position,
which is how `getFields` consumes the map) and passes the extended path
`x ++ [i]` explicitly.  The source's namespace guard on embedded fields is
commented out, so every anonymous field recurses. -/

/-- One entry of the flattening catalog: the absolute index path of the
field inside the owning struct, its declared name, and its value
(`Unembeddeds` minus the attributes `getFields` derives itself). -/
structure Unembedded where
  indexes : List Nat
  name : String
  val : GoVal
deriving DecidableEq, Repr

mutual
/-- `Explode`: catalog the fields of `v`, recursively splicing in the
fields of anonymous/embedded struct fields.  Non-struct values yield an
empty catalog (the source returns immediately when `t.Kind() != Struct`). -/
def Explode : GoVal → List Nat → List Unembedded
  | .vStruct _ fs, x => ExplodeFields fs x 0
  | _, _ => []

/-- The loop body of `Explode` over the declared fields, carrying the
path prefix `x` and the local field index `i`.  An anonymous field
recurses with path `x ++ [i]` and never emits an entry of its own; any
other field emits one entry with path `x ++ [i]`. -/
def ExplodeFields : GoFields → List Nat → Nat → List Unembedded
  | .fnil, _, _ => []
  | .fcons n a v t, x, i =>
      (if a then Explode v (x ++ [i]) else [⟨x ++ [i], n, v⟩]) ++ ExplodeFields t x (i + 1)
end

/-- The names of the entries of a flattening catalog. -/
def unembNames (l : List Unembedded) : List String :=
  l.map (·.name)

/-! ## The struct descriptor: `StructValue`, `StructField` and the
indirection resolver `IndirectStruct` (structs.go) -/

/-- The sentinel index `OutOfRange`, i.e. `-1`. -/
def OutOfRange : Int := -1

/-- `StructField`: one flattened field.  `value = none` models an invalid
(zero) `reflect.Value`.  The `Parent` back-pointer is not modelled (no
claim consults it). -/
structure StructField where
  index : Int
  indexes : List Nat
  name : String
  value : Option GoVal
deriving DecidableEq, Repr

/-- `StructValue`: the struct descriptor.  `value`/`rows` are `none` when
the corresponding `reflect.Value` is the invalid zero value;
`fieldsByIndex = none` models the nil (not yet built) field table;
`Error` is the consume-once pending-error slot. -/
structure StructValue where
  value : Option GoVal := none
  rows : Option GoVal := none
  kinds : List GoKind := []
  fieldsByIndex : Option (List StructField) := none
  Error : Option GoErr := none
deriving DecidableEq, Repr

/-- The element a slice contributes to the resolver walk: its first
element when nonempty (`v.Index(0)`), else the synthesized zero element
(`reflect.New(t.Elem()).Elem()`). -/
def sliceElem (z : GoVal) : GoVals → GoVal
  | .vcons h _ => h
  | .vnil => z

/-- The loop body of `IndirectStruct`.  Each iteration increments `i`,
appends the current kind to the shape path, stops on a struct, unwraps a
pointer or slice/array (remembering a slice in `rows` and continuing with
its first element, or the synthesized zero element when empty), rejects
map/chan/func and non-pointer kinds, and fails once `i > 3`.  The source's
unbounded `for` loop runs at most 4 iterations because of the `i > 3`
check; `fuel` (always called with 4) makes that bound structural, and the
`fuel = 0` branch is unreachable from `IndirectStruct`. -/
def indirectLoop (fuel : Nat) (v : GoVal) (kinds : List GoKind) (rows : Option GoVal)
    (i : Nat) : StructValue :=
  match fuel with
  | 0 => { kinds := kinds, rows := rows }
  | fuel + 1 =>
    let j := i + 1
    let kinds := kinds ++ [goKind v]
    if goKind v = .kStruct then
      { value := some v, kinds := kinds, rows := rows }
    else
      match v with
      | .vPtr e =>
          if j > 3 then
            { kinds := kinds, rows := rows, Error := some (.depthExceeded j kinds) }
          else indirectLoop fuel e kinds rows j
      | .vSlice z es =>
          let rows := some (GoVal.vSlice z es)
          let e := sliceElem z es
          if j > 3 then
            { kinds := kinds, rows := rows, Error := some (.depthExceeded j kinds) }
          else indirectLoop fuel e kinds rows j
      | .vMap | .vChan | .vFunc =>
          { kinds := kinds, rows := rows, Error := some (.unsupportedPtr (goKind v)) }
      | _ =>
          { kinds := kinds, rows := rows, Error := some (.notAPtr (goKind v)) }

/-- `IndirectStruct`: resolve the struct (or slice of structs) inside an
input value, recording the shape path in `kinds`. -/
def IndirectStruct (v : GoVal) : StructValue :=
  indirectLoop 4 v [] none 0

/-- `StructValue.IsValid`: the struct was found, i.e. the shape path is
nonempty and its last element is the struct kind. -/
def StructValue.IsValid (s : StructValue) : Bool :=
  match s.kinds.getLast? with
  | some .kStruct => true
  | _ => false

/-- The canonical type name `reflect.Type.Name()` of a modelled value. -/
def typeName : GoVal → String
  | .vStruct tname _ => tname
  | .vBool _ => "bool"
  | .vInt 8 _ => "int8"
  | .vInt 16 _ => "int16"
  | .vInt 32 _ => "int32"
  | .vInt _ _ => "int64"
  | .vUint 8 _ => "uint8"
  | .vUint 16 _ => "uint16"
  | .vUint 32 _ => "uint32"
  | .vUint _ _ => "uint64"
  | .vString _ => "string"
  | _ => ""

/-- `StructValue.Name`: `s.value.Type().Name()`.  On a descriptor whose
`value` is the invalid zero `reflect.Value`, `Type()` panics. -/
def StructValue.Name (s : StructValue) : Except GoPanic String :=
  match s.value with
  | none => .error .zeroValueType
  | some v => .ok (typeName v)

/-- `StructValue.Err`: gets the pending error and resets the slot
(`err, s.Error = s.Error, err`).  Returns the drained error together with
the updated descriptor. -/
def StructValue.Err (s : StructValue) : Option GoErr × StructValue :=
  (s.Error, { s with Error := none })

/-- `StructValue.Multiple`: `s.rows.IsValid()`, true iff the input was a
slice of structs. -/
def StructValue.Multiple (s : StructValue) : Bool :=
  s.rows.isSome

/-- `StructValue.getFields`: lazily build the flattened field table from
`Explode`.  Entry `i` of the catalog becomes `fieldsByIndex[i]` with
`index = i` (`initFields`/`loadField`).  Calling it with an invalid
`value` panics inside `Explode` at `v.Type()`. -/
def StructValue.getFields (s : StructValue) : Except GoPanic StructValue :=
  match s.fieldsByIndex with
  | some _ => .ok s
  | none =>
    match s.value with
    | none => .error .zeroValueType
    | some v =>
        let catalog := Explode v []
        let fields := ((List.range catalog.length).zip catalog).map fun p =>
          ({ index := (p.1 : Int), indexes := p.2.indexes, name := p.2.name,
             value := some p.2.val } : StructField)
        .ok { s with fieldsByIndex := some fields }

/-- Lookup in the `fieldsByName` map.  `loadField` inserts the fields in
index order keyed by name, so on duplicate names the last-inserted field
wins: model the map lookup as the last catalog entry with that name. -/
def lookupByName (fields : List StructField) (n : String) : Option StructField :=
  fields.reverse.find? (·.name == n)

/-- `StructValue.getFieldByName`: build the table if needed, then consult
the name map; an unknown name stages the `invalid field name` error on the
descriptor and yields no field. -/
def StructValue.getFieldByName (s : StructValue) (n : String) :
    Except GoPanic (StructValue × Option StructField) :=
  match s.getFields with
  | .error p => .error p
  | .ok s2 =>
    match lookupByName (s2.fieldsByIndex.getD []) n with
    | some f => .ok (s2, some f)
    | none => .ok ({ s2 with Error := some (.invalidFieldName n) }, none)

/-- The `i`-th declared field of a field list (`reflect.Value.Field`). -/
def fieldAt : GoFields → Nat → Option GoVal
  | .fnil, _ => none
  | .fcons _ _ v _, 0 => some v
  | .fcons _ _ _ t, i + 1 => fieldAt t i

/-- `reflect.Value.FieldByIndex`: follow a path of per-level field indices
inside a struct value; `none` models the panic on a malformed path. -/
def fieldByIndexes : GoVal → List Nat → Option GoVal
  | v, [] => some v
  | .vStruct _ fs, i :: rest =>
      match fieldAt fs i with
      | some w => fieldByIndexes w rest
      | none => none
  | _, _ :: _ => none

/-- `s.rows.Len()`: the number of rows of the backing slice (0 when `rows`
is not a slice, a case `getRow` never reaches for resolver-built
descriptors). -/
def StructValue.rowsLen (s : StructValue) : Int :=
  match s.rows with
  | some (.vSlice _ es) => (es.length : Int)
  | _ => 0

/-- `StructValue.getRow`: re-point `value` at row `rownum` of the backing
slice (dereferencing a pointer element), re-bind every cached field's
`value` through its stored index path, and clear the pending error; out of
range rows and non-sequence descriptors stage the corresponding error.
Returns the error result of the call (`getRow` returns `s.setErr(...)`)
together with the updated descriptor. -/
def StructValue.getRow (s : StructValue) (rownum : Int) : Option GoErr × StructValue :=
  if s.Multiple then
    if s.rowsLen > 0 then
      if OutOfRange < rownum ∧ rownum < s.rowsLen then
        let newValue :=
          match s.rows with
          | some (.vSlice _ es) => es.get rownum.toNat
          | _ => none
        let newValue :=
          match newValue with
          | some (.vPtr e) => some e
          | w => w
        let fields := s.fieldsByIndex.map fun fs =>
          fs.map fun f =>
            { f with value := newValue.bind (fieldByIndexes · f.indexes) }
        (none, { s with value := newValue, fieldsByIndex := fields, Error := none })
      else (some .errNoRow, { s with Error := some .errNoRow })
    else (some .errNoRows, { s with Error := some .errNoRows })
  else (some .errNoStructs, { s with Error := some .errNoStructs })

/-! ## The row cursor: `StructRows` -/

/-- `StructRows`: a row cursor.  It embeds a copy of the `StructValue` it
iterates, plus the current row number (`OutOfRange` before the first
`Next`). -/
structure StructRows where
  rownum : Int
  sv : StructValue
deriving DecidableEq, Repr

/-- `Rows`: construct a cursor over a sequence-backed descriptor; fails
with `errNoStructs` when the descriptor is not sequence-backed and with
`ErrNoRows` when the sequence is empty. -/
def StructValue.Rows (s : StructValue) : Except GoErr StructRows :=
  if s.Multiple then
    if s.rowsLen > 0 then .ok ⟨OutOfRange, s⟩
    else .error .errNoRows
  else .error .errNoStructs

/-- `StructRows.isClosed`: the cursor is closed when its embedded
descriptor is no longer valid. -/
def StructRows.isClosed (r : StructRows) : Bool :=
  !r.sv.IsValid

/-- `StructRows.Index`: the current row number, or `OutOfRange` once
closed. -/
def StructRows.Index (r : StructRows) : Int :=
  if !r.isClosed then r.rownum else OutOfRange

/-- `StructRows.Len`: the number of rows, or `OutOfRange` once closed. -/
def StructRows.Len (r : StructRows) : Int :=
  if !r.isClosed then r.sv.rowsLen else OutOfRange

/-- `StructRows.MaxRow`: index of the last row, or `OutOfRange` once
closed. -/
def StructRows.MaxRow (r : StructRows) : Int :=
  if !r.isClosed then r.Len - 1 else OutOfRange

/-- `StructRows.Columns`: the visible field names (`r.Fields().Names()`),
or the `struct rows are closed` error once closed.  Building the field
table can panic on an invalid value, hence the outer `Except GoPanic`. -/
def StructRows.Columns (r : StructRows) :
    Except GoPanic (Except GoErr (List String) × StructRows) :=
  if !r.isClosed then
    match r.sv.getFields with
    | .error p => .error p
    | .ok s2 => .ok (.ok (((s2.fieldsByIndex).getD []).map (·.name)), { r with sv := s2 })
  else .ok (.error .errRowsClosed, r)

/-- `StructRows.Next`: try to advance to row `rownum + 1`; on success
(`getRow` returned nil) confirm the new row number and return true,
otherwise return false.  A closed cursor always returns false. -/
def StructRows.Next (r : StructRows) : Bool × StructRows :=
  if !r.isClosed then
    let i := r.rownum + 1
    if i < r.Len then
      match r.sv.getRow i with
      | (none, s2) => (true, { rownum := i, sv := s2 })
      | (some _, s2) => (false, { r with sv := s2 })
    else (false, r)
  else (false, r)

/-- `StructRows.Close`: `destroy` the embedded descriptor (all attributes
reset to their zero values); idempotent, always returns nil. -/
def StructRows.Close (r : StructRows) : Option GoErr × StructRows :=
  (none, { r with sv := {} })

/-! ## Coercive assignment and equality (field.go)

`setV1`/`equalV1` embed `StructField.Set` and `StructField.equal` from the
first version of field.go, restricted to the modelled value categories:
the `CanTime`/`CanDuration`/`CanError`/`CanFloat`/`CanComplex` guards are
identically false on `GoVal` (those categories have no constructors), so
the source branches they guard are unreachable and omitted.  The
settability of the slot (`f.CanSet()`) is passed as the boolean `canSet`,
and the qualified field name (`f.FullName()`) as `fullname`. -/

/-- `reflect.Value.OverflowInt` for a signed target of width `w`: the
value does not fit in `w` bits two's complement. -/
def overflowInt (w : Nat) (n : Int) : Bool :=
  decide (n < -(2 ^ (w - 1) : Int)) || decide ((2 ^ (w - 1) : Int) - 1 < n)

/-- `reflect.Value.OverflowUint` for an unsigned target of width `w`. -/
def overflowUint (w : Nat) (n : Nat) : Bool :=
  decide ((2 ^ w : Nat) ≤ n)

/-- A signed value representable by its own declared width `w` (the
well-formedness invariant Go's type system maintains for `vInt w n`). -/
def inIntRange (w : Nat) (n : Int) : Bool :=
  !(overflowInt w n)

/-- `StructField.AssignableTo`: `vT.AssignableTo(xT)`, or equal canonical
type strings, or an interface-kinded slot.  On modelled values all three
collapse to type equality (there is no interface constructor and no
distinct-but-assignable named types in the model). -/
def sameType : GoVal → GoVal → Bool
  | .vBool _, .vBool _ => true
  | .vInt w _, .vInt w2 _ => w == w2
  | .vUint w _, .vUint w2 _ => w == w2
  | .vString _, .vString _ => true
  | .vStruct n _, .vStruct n2 _ => n == n2
  | .vPtr e, .vPtr e2 => sameType e e2
  | .vSlice z _, .vSlice z2 _ => sameType z z2
  | _, _ => false

/-- `reflect.Type.String()` of a modelled value's type. -/
def typeStr : GoVal → String
  | .vPtr e => "*" ++ typeStr e
  | .vSlice z _ => "[]" ++ typeStr z
  | .vMap => "map"
  | .vChan => "chan"
  | .vFunc => "func"
  | v => typeName v

/-- The byte payloads of a `[]byte` value (`reflect.Value.Bytes`).  The
non-`uint8` element case is unreachable for well-formed byte slices. -/
def goValsBytes : GoVals → List Nat
  | .vnil => []
  | .vcons (.vUint _ n) t => n :: goValsBytes t
  | .vcons _ t => 0 :: goValsBytes t

/-- Build slice elements from a list of values. -/
def GoVals.ofList : List GoVal → GoVals
  | [] => .vnil
  | v :: t => .vcons v (GoVals.ofList t)

/-- Go `string(b)` for a byte slice.  Modelled as byte-to-code-point
mapping; exact UTF-8 decoding of multi-byte sequences is outside every
claim (no claim converts bytes to strings). -/
def bytesToString (es : GoVals) : String :=
  String.mk ((goValsBytes es).map Char.ofNat)

/-- Go `[]byte(s)`: the UTF-8 encoding of a string as slice elements. -/
def stringToBytes (s : String) : GoVals :=
  GoVals.ofList (s.toUTF8.toList.map fun b => GoVal.vUint 8 b.toNat)

/-- Go `strings.ToLower`, modelled as ASCII case mapping over the
characters (every distinguishing string of the engine is ASCII). -/
def goToLower (s : String) : String :=
  String.mk (s.data.map Char.toLower)

/-- The `switch` of `StructField.Set` after the nil and pointer presets:
first the assignability test, then the per-category conversion tables, and
the final `wrong kind of value` error when no rule matched.  `v` is the
slot's current value, `x` the input; the result is the slot's new value
(unchanged on error) paired with the returned error. -/
def setAssign (fullname : String) (v x : GoVal) : GoVal × Option GoErr :=
  if sameType v x then (x, none)
  else
    match v, x with
    -- case utils.CanString(v)
    | .vString _, .vString s => (.vString s, none)
    | .vString _, .vBool b => (.vString (if b then "true" else "false"), none)
    | .vString _, .vInt _ n => (.vString (toString n), none)
    | .vString _, .vUint _ n => (.vString (toString n), none)
    | .vString _, .vSlice (.vUint 8 _) es => (.vString (bytesToString es), none)
    -- case utils.CanBool(v)
    | .vBool _, .vBool b => (.vBool b, none)
    | .vBool _, .vString s =>
        match goToLower s with
        | "true" | "yes" | "y" | "ok" | "1" => (.vBool true, none)
        | _ => (.vBool false, none)
    | .vBool _, .vInt _ n =>
        if n == 1 then (.vBool true, none)
        else if n == 0 then (.vBool true, none)
        else (v, some (.wrongKind fullname (typeStr x) (typeStr v)))
    | .vBool _, .vUint _ n =>
        if n == 1 then (.vBool false, none)
        else if n == 0 then (.vBool false, none)
        else (v, some (.wrongKind fullname (typeStr x) (typeStr v)))
    -- case utils.CanInt(v)
    | .vInt w _, .vInt _ m =>
        if overflowInt w m then (v, some (.couldNotRepresentInt64 fullname (typeStr x)))
        else (.vInt w m, none)
    | .vInt w _, .vBool b => (.vInt w (if b then 1 else 0), none)
    -- case utils.CanUint(v)
    | .vUint w _, .vUint _ m =>
        if overflowUint w m then (v, some (.couldNotRepresentUint64 fullname (typeStr x)))
        else (.vUint w m, none)
    | .vUint w _, .vBool b => (.vUint w (if b then 1 else 0), none)
    -- case utils.CanBytes(v)
    | .vSlice (.vUint 8 z0) _, .vSlice (.vUint 8 _) xs => (.vSlice (.vUint 8 z0) xs, none)
    | .vSlice (.vUint 8 z0) _, .vString s => (.vSlice (.vUint 8 z0) (stringToBytes s), none)
    -- Non-Assignables
    | _, _ => (v, some (.wrongKind fullname (typeStr x) (typeStr v)))

/-- `StructField.Set` (first field.go version): settability guard, pointer
preset, then `setAssign`.  `utils.PresetIndirect` is not under src/; its
effect — continue the assignment against the pointee, allocating it first
when the pointer is nil — is modelled from the spec (§4.5 step 3); model
pointers always carry their pointee, so the preset is the pointee itself,
and on return the slot re-wraps the assigned pointee. -/
def setV1 (canSet : Bool) (fullname : String) (v x : GoVal) : GoVal × Option GoErr :=
  if !canSet then (v, some (.notSettable fullname))
  else
    match v with
    | .vPtr e =>
        if goKind x = .kPtr then setAssign fullname (.vPtr e) x
        else
          let r := setAssign fullname e x
          (.vPtr r.1, r.2)
    | v => setAssign fullname v x

/-- `utils.CanStruct`: a struct value that is not a `time.Time`, or a
pointer whose element is such a struct. -/
def canStructV : GoVal → Bool
  | .vStruct _ _ => true
  | .vPtr (.vStruct _ _) => true
  | _ => false

/-- `StructField.equal` (first field.go version): returns the field's
index when the values compare equal under the category pairing, else
`OutOfRange`.  The first case makes unexported fields always unequal.  The
final case is the `f.AssignableTo(x), v.CanInterface()` fallback, which
compares with `reflect.DeepEqual`; on modelled values `DeepEqual`
coincides with structural equality. -/
def equalV1 (exported : Bool) (index : Int) (v x : GoVal) : Int :=
  if !exported then OutOfRange
  else if canStructV v && canStructV x then
    if v = x then index else OutOfRange
  else
    match v, x with
    | .vString a, .vString b => if a = b then index else OutOfRange
    | .vBool a, .vBool b => if a = b then index else OutOfRange
    | .vInt w a, .vInt _ b =>
        if overflowInt w b then OutOfRange
        else if a = b then index else OutOfRange
    | .vUint w a, .vUint _ b =>
        if overflowUint w b then OutOfRange
        else if a = b then index else OutOfRange
    | .vSlice (.vUint 8 _) as2, .vSlice (.vUint 8 _) bs =>
        if goValsBytes as2 = goValsBytes bs then index else OutOfRange
    | v, x => if v = x then index else OutOfRange

/-- `StructField.Equal`: `f.equal(x.value) != OutOfRange` (the nil-handle
guard is outside the model: `x` is always a bound field value). -/
def EqualV1 (exported : Bool) (index : Int) (v x : GoVal) : Bool :=
  equalV1 exported index v x != OutOfRange

/-! ## The timestamp-from-string arm of `Set` (second field.go version)

The second version of `StructField.Set` inlines the layout-list parse for
`canTime(v) && canString(x)`.  `time.Time` is modelled opaquely by
`GoTime` and `time.Parse` is a parameter `parse` (its result on failure is
the zero `time.Time`, which the source keeps: `t = date` runs in both the
error and the success case).  Only the control flow over the layout list —
which is what the claim is about — is concrete. -/

/-- Opaque model of `time.Time`. -/
structure GoTime where
  ticks : Int
deriving DecidableEq, Repr

/-- The zero `time.Time`, which `time.Parse` returns alongside an error. -/
def zeroTime : GoTime := ⟨0⟩

/-- The ordered layout list of the timestamp-from-string conversion. -/
def mysqlLayouts : List String :=
  ["2006-01-02 15:04:05",
   "2006-01-02",
   "2006/01/02",
   "02-Jan-2006",
   "01-02-2006 03:04:05 PM",
   "02/01/2006  15:04:05",
   "02/01/2006 15:04"]

/-- The `for _, layout := range layouts` loop.  The body records a parse
error into `errs` (which only influences the message of the unreachable
not-found branch, so it is not carried here), then unconditionally runs
`t = date; found = true; break` — hence the tail of the list is never
consulted, which is exactly the behaviour under test. -/
def parseLayoutsLoop (parse : String → String → Option GoTime) (txt : String)
    (t0 : GoTime) : List String → GoTime × Bool
  | [] => (t0, false)
  | layout :: _ =>
      match parse layout txt with
      | some date => (date, true)
      | none => (zeroTime, true)

/-- The `canTime(v) && canString(x)` arm of the second version of
`StructField.Set`: run the layout loop starting from `t = time.Now()`,
and assign `t` when `found`, else return the invalid-date error. -/
def setTimeFromString (parse : String → String → Option GoTime) (now : GoTime)
    (txt : String) : Except GoErr GoTime :=
  let r := parseLayoutsLoop parse txt now mysqlLayouts
  if r.2 then .ok r.1 else .error (.invalidDate txt mysqlLayouts)

/-! ## Derived notions used to state the claims -/

mutual
/-- The number of unwrap levels (pointer or slice, following the same
element selection as the resolver) needed to reach a struct; `none` when
the wrapper chain never reaches one. -/
def structDepth (v : GoVal) : Option Nat :=
  match v with
  | .vStruct _ _ => some 0
  | .vPtr e => (structDepth e).map (· + 1)
  | .vSlice z es => (structDepthElem z es).map (· + 1)
  | .vBool _ => none
  | .vInt _ _ => none
  | .vUint _ _ => none
  | .vString _ => none
  | .vMap => none
  | .vChan => none
  | .vFunc => none
termination_by sizeOf v

/-- `structDepth` of the element a slice contributes to the walk. -/
def structDepthElem (z : GoVal) (es : GoVals) : Option Nat :=
  match es with
  | .vnil => structDepth z
  | .vcons h _ => structDepth h
termination_by sizeOf z + sizeOf es
decreasing_by all_goals (simp_wf; try omega)
end

mutual
/-- The chain of kinds the resolver would traverse from a value: the
wrapper kinds in order, then the kind where the walk stops. -/
def wrapKinds (v : GoVal) : List GoKind :=
  match v with
  | .vPtr e => .kPtr :: wrapKinds e
  | .vSlice z es => .kSlice :: wrapKindsElem z es
  | .vStruct _ _ => [.kStruct]
  | .vBool _ => [.kBool]
  | .vInt w _ => [.kInt w]
  | .vUint w _ => [.kUint w]
  | .vString _ => [.kString]
  | .vMap => [.kMap]
  | .vChan => [.kChan]
  | .vFunc => [.kFunc]
termination_by sizeOf v

/-- `wrapKinds` of the element a slice contributes to the walk. -/
def wrapKindsElem (z : GoVal) (es : GoVals) : List GoKind :=
  match es with
  | .vnil => wrapKinds z
  | .vcons h _ => wrapKinds h
termination_by sizeOf z + sizeOf es
decreasing_by all_goals (simp_wf; try omega)
end

/-- Every slice element satisfies `p`. -/
def GoVals.all (p : GoVal → Bool) : GoVals → Bool
  | .vnil => true
  | .vcons h t => p h && t.all p

/-- The value is a struct. -/
def isStructVal (v : GoVal) : Bool :=
  goKind v == .kStruct

/-- The value is a pointer to a struct. -/
def isPtrToStructVal : GoVal → Bool
  | .vPtr e => isStructVal e
  | _ => false

/-- Project the field value out of a field query result (`none` when the
query panicked or found no field). -/
def fieldRead (r : Except GoPanic (StructValue × Option StructField)) : Option GoVal :=
  match r with
  | .ok (_, some f) => f.value
  | _ => none

/-! ## The cursor scenario: a sequence of two records with `Count = 5, 6` -/

/-- A record of type `T` with a single `int` field `Count`. -/
def recT (n : Int) : GoVal :=
  .vStruct "T" (.fcons "Count" false (.vInt 64 n) .fnil)

/-- The input `[]T{{Count: 5}, {Count: 6}}`. -/
def rowsInput : GoVal :=
  .vSlice (recT 0) (.vcons (recT 5) (.vcons (recT 6) .vnil))

/-- The descriptor resolved from `rowsInput`. -/
def rowsDescriptor : StructValue :=
  IndirectStruct rowsInput

/-- The freshly opened cursor (`Rows` succeeds on this input). -/
def cursor0 : StructRows :=
  match rowsDescriptor.Rows with
  | .ok r => r
  | .error _ => ⟨OutOfRange, {}⟩

/-- First advance. -/
def step1 : Bool × StructRows := cursor0.Next

/-- Reading field `Count` after the first advance (this is the call that
lazily builds the field table on the embedded descriptor). -/
def read1 : Except GoPanic (StructValue × Option StructField) :=
  (step1.2).sv.getFieldByName "Count"

/-- The cursor after the read (the Go methods mutate the shared embedded
descriptor; the model threads the updated descriptor back explicitly). -/
def cursor1 : StructRows :=
  { step1.2 with
    sv := match read1 with
          | .ok (s, _) => s
          | .error _ => (step1.2).sv }

/-- Second advance. -/
def step2 : Bool × StructRows := cursor1.Next

/-- Reading field `Count` after the second advance. -/
def read2 : Except GoPanic (StructValue × Option StructField) :=
  (step2.2).sv.getFieldByName "Count"

/-- The cursor after the second read. -/
def cursor2 : StructRows :=
  { step2.2 with
    sv := match read2 with
          | .ok (s, _) => s
          | .error _ => (step2.2).sv }

/-- Third advance (past the end). -/
def step3 : Bool × StructRows := cursor2.Next

/-- The cursor after `Close()`. -/
def closedCursor : StructRows := (step3.2.Close).2

/-- A freshly opened cursor carrying a staged, undrained pending error
(as left behind by a failed field lookup). -/
def staleCursor : StructRows :=
  { cursor0 with sv := { cursor0.sv with Error := some (.invalidFieldName "Nope") } }

/-- Decidable equality for `Except` results (not provided by the
libraries in this toolchain). -/
instance {e a : Type} [DecidableEq e] [DecidableEq a] : DecidableEq (Except e a) := fun x y =>
  match x, y with
  | .ok u, .ok v =>
      if h : u = v then .isTrue (by rw [h]) else .isFalse (by simp [h])
  | .error u, .error v =>
      if h : u = v then .isTrue (by rw [h]) else .isFalse (by simp [h])
  | .ok _, .error _ => .isFalse (by simp)
  | .error _, .ok _ => .isFalse (by simp)

/-! # Theorems -/

/-- C1 (counterexample): the claim predicts that `Set` on a boolean slot
assigns `false` for the signed-integer input `0`, and that other integer
values are accepted without an error.  Both fail on the code: input `0`
assigns `true` (the `case 0` arm calls `SetBool(true)`), and input `5`
falls through the category switch and returns the `wrong kind of value`
error. -/
theorem set_bool_int_claim_counterexample :
    ¬ (setV1 true "Flag" (.vBool true) (.vInt 64 0) = (.vBool false, none))
    ∧ ¬ (setV1 true "Flag" (.vBool false) (.vUint 64 1) = (.vBool true, none))
    ∧ (setV1 true "Flag" (.vBool false) (.vInt 64 5)).2 ≠ none := by
  decide

/-- C1 (amended): for a settable boolean slot, `Set` with a string input
assigns `true` iff the lowercased string is one of
`"true", "yes", "y", "ok", "1"` and `false` otherwise; `Set` with a
signed-integer input `1` or `0` assigns `true` in both cases, with an
unsigned-integer input `1` or `0` assigns `false` in both cases, and for
any other integer value performs no assignment and returns the
`wrong kind of value` error. -/
theorem set_bool_coercion_amended (fullname : String) (b : Bool) (s : String)
    (wi wu : Nat) (n : Int) (m : Nat)
    (hn0 : n ≠ 0) (hn1 : n ≠ 1) (hm0 : m ≠ 0) (hm1 : m ≠ 1) :
    setV1 true fullname (.vBool b) (.vString s)
      = (.vBool (decide (goToLower s ∈ (["true", "yes", "y", "ok", "1"] : List String))), none)
    ∧ setV1 true fullname (.vBool b) (.vInt wi 1) = (.vBool true, none)
    ∧ setV1 true fullname (.vBool b) (.vInt wi 0) = (.vBool true, none)
    ∧ setV1 true fullname (.vBool b) (.vUint wu 1) = (.vBool false, none)
    ∧ setV1 true fullname (.vBool b) (.vUint wu 0) = (.vBool false, none)
    ∧ setV1 true fullname (.vBool b) (.vInt wi n)
        = (.vBool b, some (.wrongKind fullname (typeStr (.vInt wi n)) "bool"))
    ∧ setV1 true fullname (.vBool b) (.vUint wu m)
        = (.vBool b, some (.wrongKind fullname (typeStr (.vUint wu m)) "bool")) := by
  refine ⟨?_, ?_, ?_, ?_, ?_, ?_, ?_⟩
  · have hst : sameType (GoVal.vBool b) (GoVal.vString s) = false := rfl
    simp only [setV1, setAssign, hst, Bool.not_true, Bool.false_eq_true, if_false]
    split <;> simp_all
  · simp [setV1, setAssign, sameType]
  · simp [setV1, setAssign, sameType]
  · simp [setV1, setAssign, sameType]
  · simp [setV1, setAssign, sameType]
  · simp [setV1, setAssign, sameType, typeStr, typeName, hn0, hn1]
  · simp [setV1, setAssign, sameType, typeStr, typeName, hm0, hm1]

/-- C1 (witness): instance of the amended claim at
`fullname = "Flag"`, `b = false`, `s = "OK"`, integer input `5`,
unsigned input `7`. -/
theorem set_bool_coercion_amended_witness :
    setV1 true "Flag" (.vBool false) (.vString "OK") = (.vBool true, none)
    ∧ setV1 true "Flag" (.vBool false) (.vInt 64 5)
        = (.vBool false, some (.wrongKind "Flag" "int64" "bool")) := by
  have h := set_bool_coercion_amended "Flag" false "OK" 64 32 5 7
    (by decide) (by decide) (by decide) (by decide)
  refine ⟨?_, ?_⟩
  · rw [h.1]; decide
  · rw [h.2.2.2.2.2.1]; decide

/-- C2: the timestamp-from-string conversion parses against the fixed
ordered layout list, and the first layout attempted is authoritative: for
every parse function and every input string, the value assigned to the
slot is exactly the result of the first parse attempt (the zero time when
that attempt fails), and the conversion never reports failure. -/
theorem set_time_first_layout_authoritative
    (parse : String → String → Option GoTime) (now : GoTime) (txt : String) :
    mysqlLayouts
      = ["2006-01-02 15:04:05", "2006-01-02", "2006/01/02", "02-Jan-2006",
         "01-02-2006 03:04:05 PM", "02/01/2006  15:04:05", "02/01/2006 15:04"]
    ∧ setTimeFromString parse now txt
        = .ok (match parse "2006-01-02 15:04:05" txt with
               | some date => date
               | none => zeroTime) := by
  refine ⟨rfl, ?_⟩
  cases h : parse "2006-01-02 15:04:05" txt <;>
    simp [setTimeFromString, parseLayoutsLoop, mysqlLayouts, h]

/-- C3: assigning a signed-integer value that the slot's width cannot
represent (while the value is representable in the input's own width,
i.e. the input is a well-formed Go value) fails with the overflow error
naming the field and the input's type, and leaves the stored value
unchanged. -/
theorem set_int_overflow_rejected (fullname : String) (w wx : Nat) (cur m : Int)
    (hov : overflowInt w m = true) (hwf : inIntRange wx m = true) :
    setV1 true fullname (.vInt w cur) (.vInt wx m)
      = (.vInt w cur, some (.couldNotRepresentInt64 fullname (typeStr (.vInt wx m)))) := by
  have hne : (w == wx) = false := by
    refine beq_eq_false_iff_ne.mpr fun h => ?_
    subst h
    simp [inIntRange, hov] at hwf
  simp [setV1, setAssign, sameType, hne, hov]

/-- C3 (witness): an `int8` slot holding `3` rejects the `int64` value
`300` and keeps `3`. -/
theorem set_int_overflow_rejected_witness :
    setV1 true "Number" (.vInt 8 3) (.vInt 64 300)
      = (.vInt 8 3, some (.couldNotRepresentInt64 "Number" "int64")) := by
  have h := set_int_overflow_rejected "Number" 8 64 3 300 (by decide) (by decide)
  simpa using h

/-- C6: reading the pending-error slot via `Err()` returns the staged
error and clears the slot, so an immediately following `Err()` returns
nil. -/
theorem err_consume_once (s : StructValue) (e : GoErr) (h : s.Error = some e) :
    (s.Err).1 = some e ∧ (((s.Err).2).Err).1 = none := by
  simp [StructValue.Err, h]

/-- C6 (witness): instance on a descriptor with a staged
`struct row not found` error. -/
theorem err_consume_once_witness :
    (({ Error := some .errNoRow : StructValue }).Err).1 = some GoErr.errNoRow
    ∧ ((({ Error := some .errNoRow : StructValue }).Err).2.Err).1 = none :=
  err_consume_once { Error := some .errNoRow } .errNoRow rfl

/-- C9: the coercive equality of an unexported field is `false`
unconditionally, whatever the two values are. -/
theorem equal_unexported_always_false (index : Int) (v x : GoVal) :
    EqualV1 false index v x = false := by
  simp [EqualV1, equalV1]

/-- C7: over `[]T{{Count:5},{Count:6}}`, opening a cursor and advancing
once makes reading `Count` yield `5`; advancing again yields `6`; a third
`Next` returns false; and after `Close`, `Index` returns the out-of-range
sentinel and `Columns` fails with the `struct rows are closed` error. -/
theorem cursor_two_rows_scenario :
    rowsDescriptor.Rows = .ok cursor0
    ∧ step1.1 = true
    ∧ fieldRead read1 = some (.vInt 64 5)
    ∧ step2.1 = true
    ∧ fieldRead read2 = some (.vInt 64 6)
    ∧ step3.1 = false
    ∧ closedCursor.Index = OutOfRange
    ∧ closedCursor.Columns = .ok (.error .errRowsClosed, closedCursor) := by
  decide

/-- Helper for C10: when `getRow` succeeds (returns nil), the updated
descriptor's pending-error slot is nil (`s.setErr(nil)`). -/
theorem getRow_success_clears_error (s : StructValue) (i : Int) (s2 : StructValue)
    (h : s.getRow i = (none, s2)) : s2.Error = none := by
  unfold StructValue.getRow at h
  split at h
  · split at h
    · split at h
      · simp only [Prod.mk.injEq] at h
        obtain ⟨-, rfl⟩ := h
        rfl
      · simp at h
    · simp at h
  · simp at h

/-- C10: whenever a cursor advance succeeds (`Next` returns true), the
owning descriptor's pending-error slot is reset to nil as a side effect,
discarding any staged error the caller had not yet drained. -/
theorem next_clears_pending_error (r r2 : StructRows) (h : r.Next = (true, r2)) :
    r2.sv.Error = none := by
  unfold StructRows.Next at h
  split at h
  · dsimp only at h
    split at h
    · split at h
      · rename_i s2 heq
        simp only [Prod.mk.injEq, true_and] at h
        subst h
        exact getRow_success_clears_error _ _ _ heq
      · simp at h
    · simp at h
  · simp at h

/-- C10 (witness): a freshly opened cursor carrying a staged error
advances successfully and the staged error is gone. -/
theorem next_clears_pending_error_witness :
    staleCursor.Next.1 = true
    ∧ (staleCursor.Next.2).sv.Error = none := by
  refine ⟨by decide, ?_⟩
  exact next_clears_pending_error staleCursor staleCursor.Next.2
    (by refine Prod.ext ?_ rfl; decide)

/-- `getLast?` of a list extended on the right. -/
theorem getLast?_push {a2 : Type} (l : List a2) (a : a2) :
    (l ++ [a]).getLast? = some a := by
  rw [List.getLast?_append_cons]
  rfl

/-- The resolver loop never builds a field table. -/
theorem indirectLoop_fieldsByIndex_none (fuel : Nat) :
    ∀ (v : GoVal) (kinds : List GoKind) (rows : Option GoVal) (i : Nat),
      (indirectLoop fuel v kinds rows i).fieldsByIndex = none := by
  induction fuel with
  | zero => intro v kinds rows i; rfl
  | succ fuel ih =>
      intro v kinds rows i
      cases v <;> by_cases h3 : 3 < i + 1 <;> simp [indirectLoop, goKind, h3, ih]

/-- Whenever the resolver loop binds a value, the resulting shape path
ends in the struct kind (the value is only bound in the struct branch). -/
theorem indirectLoop_value_some_struct (fuel : Nat) :
    ∀ (v : GoVal) (kinds : List GoKind) (rows : Option GoVal) (i : Nat),
      (indirectLoop fuel v kinds rows i).value.isSome = true →
      (indirectLoop fuel v kinds rows i).kinds.getLast? = some GoKind.kStruct := by
  induction fuel with
  | zero => intro v kinds rows i h; simp [indirectLoop] at h
  | succ fuel ih =>
      intro v kinds rows i h
      cases v <;> by_cases h3 : 3 < i + 1 <;>
        simp [indirectLoop, goKind, h3, getLast?_push] at h ⊢ <;>
        exact ih _ _ _ _ h

/-- C5 (counterexample): the descriptor resolved from a plain `int` input
is invalid, and the name query `Name()` on it panics
(`reflect.Value.Type` on the zero value) instead of answering with a
typed error and never panicking, and so does a field query. -/
theorem invalid_descriptor_claim_counterexample :
    (IndirectStruct (.vInt 64 7)).IsValid = false
    ∧ (IndirectStruct (.vInt 64 7)).Name = .error .zeroValueType
    ∧ (IndirectStruct (.vInt 64 7)).getFieldByName "X" = .error .zeroValueType := by
  decide

/-- C5 (amended): a `StructValue` satisfies `IsValid() = true` iff the
last element of its recorded shape path is the struct kind; however a
resolver-built descriptor with `IsValid() = false` holds no resolved
value, and the name query and every field-by-name query on it panic with
the zero-value reflect panic rather than answering with a typed error. -/
theorem invalid_descriptor_queries_panic :
    (∀ s : StructValue, s.IsValid = true ↔ s.kinds.getLast? = some GoKind.kStruct)
    ∧ (∀ v : GoVal, (IndirectStruct v).IsValid = false →
        (IndirectStruct v).value = none
        ∧ (IndirectStruct v).Name = .error .zeroValueType
        ∧ ∀ n, (IndirectStruct v).getFieldByName n = .error .zeroValueType) := by
  constructor
  · intro s
    unfold StructValue.IsValid
    rcases h : s.kinds.getLast? with - | k
    · simp
    · cases k <;> simp
  · intro v hval
    have h1 : (IndirectStruct v).value = none := by
      rcases hv : (IndirectStruct v).value with - | w
      · rfl
      · exfalso
        have hsome : (IndirectStruct v).value.isSome = true := by rw [hv]; rfl
        have hlast : (IndirectStruct v).kinds.getLast? = some GoKind.kStruct :=
          indirectLoop_value_some_struct 4 v [] none 0 hsome
        unfold StructValue.IsValid at hval
        rw [hlast] at hval
        simp at hval
    have h2 : (IndirectStruct v).fieldsByIndex = none :=
      indirectLoop_fieldsByIndex_none 4 v [] none 0
    refine ⟨h1, ?_, ?_⟩
    · simp [StructValue.Name, h1]
    · intro n
      simp [StructValue.getFieldByName, StructValue.getFields, h1, h2]

/-- C5 (witness): instance on the invalid descriptor resolved from a
boolean input. -/
theorem invalid_descriptor_queries_panic_witness :
    (IndirectStruct (.vBool true)).IsValid = false
    ∧ (IndirectStruct (.vBool true)).value = none
    ∧ (IndirectStruct (.vBool true)).Name = .error .zeroValueType
    ∧ (IndirectStruct (.vBool true)).getFieldByName "Count" = .error .zeroValueType := by
  have h := invalid_descriptor_queries_panic.2 (.vBool true) (by decide)
  exact ⟨by decide, h.1, h.2.1, h.2.2 "Count"⟩

/-- `structDepthElem` agrees with `structDepth` of the selected element. -/
theorem structDepthElem_eq (z : GoVal) (es : GoVals) :
    structDepthElem z es = structDepth (sliceElem z es) := by
  cases es <;> simp [structDepthElem, sliceElem]

/-- `wrapKindsElem` agrees with `wrapKinds` of the selected element. -/
theorem wrapKindsElem_eq (z : GoVal) (es : GoVals) :
    wrapKindsElem z es = wrapKinds (sliceElem z es) := by
  cases es <;> simp [wrapKindsElem, sliceElem]

/-- A value at positive wrapper depth is a pointer or a slice, whose
continuation value sits one level lower. -/
theorem structDepth_succ (v : GoVal) (n : Nat) (h : structDepth v = some (n + 1)) :
    (∃ e, v = .vPtr e ∧ structDepth e = some n
        ∧ wrapKinds v = .kPtr :: wrapKinds e)
    ∨ (∃ z es, v = .vSlice z es ∧ structDepth (sliceElem z es) = some n
        ∧ wrapKinds v = .kSlice :: wrapKinds (sliceElem z es)) := by
  cases v with
  | vPtr e =>
      left
      refine ⟨e, rfl, ?_, by simp [wrapKinds]⟩
      rcases he : structDepth e with - | d <;> simp [structDepth, he] at h
      have : d = n := by omega
      rw [this]
  | vSlice z es =>
      right
      refine ⟨z, es, rfl, ?_, by simp [wrapKinds, wrapKindsElem_eq]⟩
      rw [← structDepthElem_eq]
      rcases he : structDepthElem z es with - | d <;> simp [structDepth, he] at h
      have : d = n := by omega
      rw [this]
  | vStruct tn fs => simp [structDepth] at h
  | vBool b => simp [structDepth] at h
  | vInt w m => simp [structDepth] at h
  | vUint w m => simp [structDepth] at h
  | vString s => simp [structDepth] at h
  | vMap => simp [structDepth] at h
  | vChan => simp [structDepth] at h
  | vFunc => simp [structDepth] at h

/-- When the remaining wrapper depth exceeds the remaining loop budget,
the resolver loop fails with the depth diagnostic listing the kinds seen
so far (the prefix already recorded plus the next `4 - i` wrapper
kinds). -/
theorem indirectLoop_depth_fail (fuel : Nat) :
    ∀ (i : Nat) (v : GoVal) (n : Nat) (kinds : List GoKind) (rows : Option GoVal),
      fuel + i = 4 → i ≤ 3 → structDepth v = some n → 3 < i + n →
      (indirectLoop fuel v kinds rows i).Error
          = some (.depthExceeded 4 (kinds ++ (wrapKinds v).take (4 - i)))
      ∧ (indirectLoop fuel v kinds rows i).IsValid = false := by
  induction fuel with
  | zero => intro i v n kinds rows hfi hi3 _ _; omega
  | succ fuel ih =>
      intro i v n kinds rows hfi hi3 hd hn
      obtain ⟨m, rfl⟩ : ∃ m, n = m + 1 := ⟨n - 1, by omega⟩
      have htake : 4 - i = (4 - (i + 1)) + 1 := by omega
      rcases structDepth_succ v m hd with ⟨e, rfl, hde, hke⟩ | ⟨z, es, rfl, hde, hke⟩
      · by_cases h3 : 3 < i + 1
        · have hi : i = 3 := by omega
          subst hi
          constructor
          · simp [indirectLoop, goKind, hke, List.take_succ_cons]
          · simp [indirectLoop, goKind, StructValue.IsValid, getLast?_push]
        · have := ih (i + 1) e m (kinds ++ [GoKind.kPtr]) rows (by omega) (by omega)
            hde (by omega)
          constructor
          · simp only [indirectLoop, goKind, reduceCtorEq, if_false, h3, reduceIte]
            rw [this.1, hke, htake, List.take_succ_cons]
            simp
          · simp only [indirectLoop, goKind, reduceCtorEq, if_false, h3, reduceIte]
            exact this.2
      · by_cases h3 : 3 < i + 1
        · have hi : i = 3 := by omega
          subst hi
          constructor
          · simp [indirectLoop, goKind, hke, List.take_succ_cons]
          · simp [indirectLoop, goKind, StructValue.IsValid, getLast?_push]
        · have := ih (i + 1) (sliceElem z es) m (kinds ++ [GoKind.kSlice])
            (some (.vSlice z es)) (by omega) (by omega) hde (by omega)
          constructor
          · simp only [indirectLoop, goKind, reduceCtorEq, if_false, h3, reduceIte]
            rw [this.1, hke, htake, List.take_succ_cons]
            simp
          · simp only [indirectLoop, goKind, reduceCtorEq, if_false, h3, reduceIte]
            exact this.2

/-- A struct-kinded value is a struct constructor. -/
theorem exists_of_isStructVal (v : GoVal) (h : isStructVal v = true) :
    ∃ tn fs, v = .vStruct tn fs := by
  cases v <;> simp_all [isStructVal, goKind]

/-- A pointer-to-struct value is a pointer around a struct constructor. -/
theorem exists_of_isPtrToStructVal (v : GoVal) (h : isPtrToStructVal v = true) :
    ∃ tn fs, v = .vPtr (.vStruct tn fs) := by
  cases v <;> simp_all [isPtrToStructVal]
  rename_i e
  exact exists_of_isStructVal e h

/-- C4: the resolver succeeds and binds a record for every input of shape
`T`, `*T`, `[]T`, `*[]T` and `[]*T`; and any input needing more than 3
unwrap levels to reach a record fails with the depth diagnostic that
includes the wrapper kinds traversed so far. -/
theorem resolver_shapes_and_depth_bound :
    (∀ tn fs, (IndirectStruct (.vStruct tn fs)).Error = none
       ∧ (IndirectStruct (.vStruct tn fs)).IsValid = true
       ∧ (IndirectStruct (.vStruct tn fs)).value = some (.vStruct tn fs))
    ∧ (∀ tn fs, (IndirectStruct (.vPtr (.vStruct tn fs))).Error = none
       ∧ (IndirectStruct (.vPtr (.vStruct tn fs))).IsValid = true
       ∧ (IndirectStruct (.vPtr (.vStruct tn fs))).value = some (.vStruct tn fs))
    ∧ (∀ z es, isStructVal z = true → GoVals.all isStructVal es = true →
       (IndirectStruct (.vSlice z es)).Error = none
       ∧ (IndirectStruct (.vSlice z es)).IsValid = true
       ∧ ((IndirectStruct (.vSlice z es)).value).isSome = true)
    ∧ (∀ z es, isStructVal z = true → GoVals.all isStructVal es = true →
       (IndirectStruct (.vPtr (.vSlice z es))).Error = none
       ∧ (IndirectStruct (.vPtr (.vSlice z es))).IsValid = true
       ∧ ((IndirectStruct (.vPtr (.vSlice z es))).value).isSome = true)
    ∧ (∀ z es, isPtrToStructVal z = true → GoVals.all isPtrToStructVal es = true →
       (IndirectStruct (.vSlice z es)).Error = none
       ∧ (IndirectStruct (.vSlice z es)).IsValid = true
       ∧ ((IndirectStruct (.vSlice z es)).value).isSome = true)
    ∧ (∀ v n, structDepth v = some n → 3 < n →
       (IndirectStruct v).Error = some (.depthExceeded 4 ((wrapKinds v).take 4))
       ∧ (IndirectStruct v).IsValid = false) := by
  refine ⟨?_, ?_, ?_, ?_, ?_, ?_⟩
  · intro tn fs
    refine ⟨rfl, rfl, rfl⟩
  · intro tn fs
    refine ⟨rfl, rfl, rfl⟩
  · intro z es hz hes
    cases es with
    | vnil =>
        obtain ⟨tn, fs, rfl⟩ := exists_of_isStructVal z hz
        exact ⟨rfl, rfl, rfl⟩
    | vcons h t =>
        have hh : isStructVal h = true := by
          simp [GoVals.all] at hes
          exact hes.1
        obtain ⟨tn, fs, rfl⟩ := exists_of_isStructVal h hh
        exact ⟨rfl, rfl, rfl⟩
  · intro z es hz hes
    cases es with
    | vnil =>
        obtain ⟨tn, fs, rfl⟩ := exists_of_isStructVal z hz
        exact ⟨rfl, rfl, rfl⟩
    | vcons h t =>
        have hh : isStructVal h = true := by
          simp [GoVals.all] at hes
          exact hes.1
        obtain ⟨tn, fs, rfl⟩ := exists_of_isStructVal h hh
        exact ⟨rfl, rfl, rfl⟩
  · intro z es hz hes
    cases es with
    | vnil =>
        obtain ⟨tn, fs, rfl⟩ := exists_of_isPtrToStructVal z hz
        exact ⟨rfl, rfl, rfl⟩
    | vcons h t =>
        have hh : isPtrToStructVal h = true := by
          simp [GoVals.all] at hes
          exact hes.1
        obtain ⟨tn, fs, rfl⟩ := exists_of_isPtrToStructVal h hh
        exact ⟨rfl, rfl, rfl⟩
  · intro v n hd hn
    have h := indirectLoop_depth_fail 4 0 v n [] none rfl (by omega) hd (by omega)
    simpa using h

/-- C4 (witness): instances — the five shapes over the one-field record
`T`, and a four-pointer chain rejected with the diagnostic listing the
four traversed kinds. -/
theorem resolver_shapes_and_depth_bound_witness :
    (IndirectStruct (recT 5)).Error = none
    ∧ (IndirectStruct (.vSlice (.vPtr (recT 0)) (.vcons (.vPtr (recT 5)) .vnil))).IsValid
        = true
    ∧ (IndirectStruct (.vPtr (.vPtr (.vPtr (.vPtr (recT 5)))))).Error
        = some (.depthExceeded 4 [.kPtr, .kPtr, .kPtr, .kPtr]) := by
  refine ⟨(resolver_shapes_and_depth_bound.1 "T" _).1, ?_, ?_⟩
  · exact (resolver_shapes_and_depth_bound.2.2.2.2.1 (.vPtr (recT 0))
      (.vcons (.vPtr (recT 5)) .vnil) (by decide) (by decide)).2.1
  · have h := (resolver_shapes_and_depth_bound.2.2.2.2.2
      (.vPtr (.vPtr (.vPtr (.vPtr (recT 5))))) 4
      (by simp [structDepth, recT]) (by omega)).1
    rw [h]
    simp [wrapKinds, recT, goKind]

/-- `unembNames` distributes over catalog concatenation. -/
theorem unembNames_append (l1 l2 : List Unembedded) :
    unembNames (l1 ++ l2) = unembNames l1 ++ unembNames l2 :=
  List.map_append _ l1 l2

mutual
/-- The names of a flattening catalog do not depend on the path prefix
(only the `indexes` attributes do). -/
theorem explodeNames_indep (v : GoVal) (x y : List Nat) :
    unembNames (Explode v x) = unembNames (Explode v y) :=
  match v with
  | .vStruct _ fs => explodeFieldsNames_indep fs x 0 y 0
  | .vBool _ => rfl
  | .vInt _ _ => rfl
  | .vUint _ _ => rfl
  | .vString _ => rfl
  | .vPtr _ => rfl
  | .vSlice _ _ => rfl
  | .vMap => rfl
  | .vChan => rfl
  | .vFunc => rfl

/-- The names of a field-list catalog do not depend on the path prefix
or the starting sibling index. -/
theorem explodeFieldsNames_indep (fs : GoFields) (x : List Nat) (i : Nat)
    (y : List Nat) (j : Nat) :
    unembNames (ExplodeFields fs x i) = unembNames (ExplodeFields fs y j) :=
  match fs with
  | .fnil => rfl
  | .fcons n a v t => by
      cases a
      · simp only [ExplodeFields, Bool.false_eq_true, if_false, unembNames_append]
        rw [explodeFieldsNames_indep t x (i + 1) y (j + 1)]
        rfl
      · simp only [ExplodeFields, if_true, unembNames_append]
        rw [explodeNames_indep v (x ++ [i]) (y ++ [j]),
          explodeFieldsNames_indep t x (i + 1) y (j + 1)]
end

/-- The flattening catalog of a concatenated field list is the
concatenation of the two catalogs, up to the name projection. -/
theorem explodeFieldsNames_append (fs gs : GoFields) (x : List Nat) (i : Nat) :
    unembNames (ExplodeFields (fs.append gs) x i)
      = unembNames (ExplodeFields fs x i) ++ unembNames (ExplodeFields gs x i) :=
  match fs with
  | .fnil => rfl
  | .fcons n a v t => by
      simp only [GoFields.append, ExplodeFields, unembNames_append, List.append_assoc]
      rw [explodeFieldsNames_append t gs x (i + 1),
        explodeFieldsNames_indep gs x (i + 1) x i]

/-- C8: for a record `Outer` embedding an anonymous record `Inner` that
declares a field `X`, the flattened field list of `Outer` contains an
entry named `X`; and — provided no other (visible) field anywhere in
`Outer` or `Inner` is itself declared with the embedded type's name — no
entry named after `Inner` appears: the embedding field itself is never
emitted, only its flattened contents are spliced in. -/
theorem flatten_promotes_embedded_fields
    (oname iname xname : String) (xv : GoVal)
    (outPre outPost innPre innPost : GoFields) :
    xname ∈ unembNames (Explode (GoVal.vStruct oname (outPre.append (.fcons iname true
        (.vStruct iname (innPre.append (.fcons xname false xv innPost))) outPost))) [])
    ∧ (iname ∉ unembNames (ExplodeFields outPre [] 0) →
       iname ∉ unembNames (ExplodeFields innPre [] 0) →
       iname ≠ xname →
       iname ∉ unembNames (ExplodeFields innPost [] 0) →
       iname ∉ unembNames (ExplodeFields outPost [] 0) →
       iname ∉ unembNames (Explode (GoVal.vStruct oname (outPre.append (.fcons iname true
          (.vStruct iname (innPre.append (.fcons xname false xv innPost))) outPost))) [])) := by
  have keyInner : ∀ p : List Nat,
      unembNames (Explode (GoVal.vStruct iname
          (innPre.append (.fcons xname false xv innPost))) p)
        = unembNames (ExplodeFields innPre [] 0)
          ++ ([xname] ++ unembNames (ExplodeFields innPost [] 0)) := by
    intro p
    show unembNames (ExplodeFields (innPre.append (.fcons xname false xv innPost)) p 0) = _
    rw [explodeFieldsNames_append]
    rw [explodeFieldsNames_indep innPre p 0 [] 0]
    congr 1
    simp only [ExplodeFields, Bool.false_eq_true, if_false, unembNames_append]
    rw [explodeFieldsNames_indep innPost p 1 [] 0]
    rfl
  have keyOuter :
      unembNames (Explode (GoVal.vStruct oname (outPre.append (.fcons iname true
          (.vStruct iname (innPre.append (.fcons xname false xv innPost))) outPost))) [])
        = unembNames (ExplodeFields outPre [] 0)
          ++ ((unembNames (ExplodeFields innPre [] 0)
               ++ ([xname] ++ unembNames (ExplodeFields innPost [] 0)))
              ++ unembNames (ExplodeFields outPost [] 0)) := by
    show unembNames (ExplodeFields _ [] 0) = _
    rw [explodeFieldsNames_append]
    congr 1
    simp only [ExplodeFields, if_true, unembNames_append]
    rw [keyInner, explodeFieldsNames_indep outPost [] 1 [] 0]
  constructor
  · rw [keyOuter]
    simp
  · intro h1 h2 h3 h4 h5
    rw [keyOuter]
    simp only [List.mem_append, List.mem_singleton]
    push_neg
    exact ⟨h1, ⟨h2, h3, h4⟩, h5⟩

/-- C8 (witness): `Outer{Inner; Y bool}` with `Inner{X int}` flattens to
a list containing `X` and no entry named `Inner`. -/
theorem flatten_promotes_embedded_fields_witness :
    "X" ∈ unembNames (Explode (GoVal.vStruct "Outer" (.fcons "Inner" true
        (.vStruct "Inner" (.fcons "X" false (.vInt 64 1) .fnil))
        (.fcons "Y" false (.vBool true) .fnil))) [])
    ∧ "Inner" ∉ unembNames (Explode (GoVal.vStruct "Outer" (.fcons "Inner" true
        (.vStruct "Inner" (.fcons "X" false (.vInt 64 1) .fnil))
        (.fcons "Y" false (.vBool true) .fnil))) []) := by
  have h := flatten_promotes_embedded_fields "Outer" "Inner" "X" (.vInt 64 1)
    .fnil (.fcons "Y" false (.vBool true) .fnil) .fnil .fnil
  exact ⟨h.1, h.2 (by decide) (by decide) (by decide) (by decide) (by decide)⟩

end Structs

